import Mathlib

/-!
Shallow embedding of the Taily shard-selection library
(header `include/taily.hpp`).

Modelling conventions:
* `double` values are embedded as exact rationals (`ℚ`); `std::int64_t`
  as `Int`.
* Boost.Math's `gamma_distribution` raises `std::domain_error` from its
  constructor when the shape or the scale parameter is not a positive
  finite number, `quantile(complement(d, q))` raises a domain error when
  `q` is outside `[0, 1]` and an overflow error when `q = 0`, and
  `cdf(complement(d, x))` raises a domain error when `x < 0`.  These
  throwing paths are embedded with `Except Err`.
* The transcendental regularized upper incomplete gamma function
  `gamma_q` and its inverse `gamma_q_inv`, which Boost uses inside
  `cdf(complement ...)` and `quantile(complement ...)`, are taken as
  abstract parameters (`gq`, `gqi`); every branch and check around them
  is embedded concretely.
* In C++, `x / 0.0` yields `±inf` (or NaN); in `ℚ` it yields `0`.  At
  each place where the source can divide by zero the embedding makes the
  case split explicit and encodes the IEEE outcome of the surrounding
  expression, as noted in comments at those places.
-/

instance {ε α : Type} [DecidableEq ε] [DecidableEq α] : DecidableEq (Except ε α) :=
  fun a b =>
    match a, b with
    | .error x, .error y =>
      if h : x = y then .isTrue (by rw [h])
      else .isFalse (by intro hc; cases hc; exact h rfl)
    | .ok x, .ok y =>
      if h : x = y then .isTrue (by rw [h])
      else .isFalse (by intro hc; cases hc; exact h rfl)
    | .error _, .ok _ => .isFalse (by intro hc; cases hc)
    | .ok _, .error _ => .isFalse (by intro hc; cases hc)

namespace Taily

/-- The Boost.Math error kinds reachable from this code under the default
policy: `std::domain_error` and `std::overflow_error`. -/
inductive Err where
  | domain
  | overflow
deriving DecidableEq, Repr

/-- `taily::Feature_Statistics`: mean, population variance and document
frequency of one term's feature values. -/
structure Feature_Statistics where
  expected_value : ℚ
  variance : ℚ
  frequency : Int
deriving DecidableEq, Repr

/-- `Feature_Statistics::operator+`: component-wise sum. -/
instance : Add Feature_Statistics :=
  ⟨fun a b =>
    ⟨a.expected_value + b.expected_value, a.variance + b.variance,
     a.frequency + b.frequency⟩⟩

theorem Feature_Statistics.add_def (a b : Feature_Statistics) :
    a + b = ⟨a.expected_value + b.expected_value, a.variance + b.variance,
             a.frequency + b.frequency⟩ := rfl

/-- `std::accumulate(term_stats.begin(), term_stats.end(),
Feature_Statistics{0, 0, 0})` as used in `fit_distribution` and
`calculate_cdf`. -/
def sum_stats (l : List Feature_Statistics) : Feature_Statistics :=
  l.foldl (· + ·) ⟨0, 0, 0⟩

/-- `Feature_Statistics::from_features`: the empty range gives `{0,0,0}`;
otherwise a fold accumulates the count and the sum, the mean is
`sum / count`, and a second fold accumulates `(mean - v)^2`, divided by
`count`. -/
def from_features (features : List ℚ) : Feature_Statistics :=
  if features = [] then ⟨0, 0, 0⟩
  else
    let cs := features.foldl (fun p v => (p.1 + 1, p.2 + v)) ((0 : Int), (0 : ℚ))
    let count : Int := cs.1
    let sum : ℚ := cs.2
    let expected_value := sum / (count : ℚ)
    let variance :=
      (features.foldl (fun acc v => acc + (expected_value - v) ^ 2) 0) / (count : ℚ)
    ⟨expected_value, variance, count⟩

/-- `taily::Query_Statistics`: one `Feature_Statistics` per query term plus
the partition's document count. -/
structure Query_Statistics where
  term_stats : List Feature_Statistics
  collection_size : Int
deriving DecidableEq, Repr

/-- `taily::any`: `collection_size * (1 - prod_i (1 - frequency_i / collection_size))`,
the product computed by a left fold starting at `1.0`. -/
def any (stats : Query_Statistics) : ℚ :=
  let collection_size : ℚ := (stats.collection_size : ℚ)
  let any_product :=
    stats.term_stats.foldl
      (fun acc fs => acc * (1 - (fs.frequency : ℚ) / collection_size)) 1
  collection_size * (1 - any_product)

/-- `taily::all`: `0` when `any` is exactly `0`, otherwise
`any * prod_i (frequency_i / any)`, the product computed by a left fold
starting at `1.0`. -/
def all (stats : Query_Statistics) : ℚ :=
  let a := any stats
  if a = 0 then 0
  else
    a * stats.term_stats.foldl (fun acc fs => acc * ((fs.frequency : ℚ) / a)) 1

/-- `std::numeric_limits<double>::epsilon()` for IEEE binary64. -/
def epsilon : ℚ := 1 / 2 ^ 52

/-- The boost `gamma_distribution<>` parameter record. -/
structure Gamma_Distribution where
  shape : ℚ
  scale : ℚ
deriving DecidableEq, Repr

/-- The `gamma_distribution` constructor: Boost's `check_gamma` rejects a
shape or scale that is not a positive finite number with a domain error.
(When the source computes `scale = variance / 0.0` the C++ value is `+inf`,
rejected by the finiteness check; in `ℚ` the quotient is `0`, rejected by
the positivity check — the same domain error either way, and in every such
case the shape check `shape > 0` also fails because the numerator
`expected_value` is `0`.) -/
def make_gamma (shape scale : ℚ) : Except Err Gamma_Distribution :=
  if 0 < shape ∧ 0 < scale then .ok ⟨shape, scale⟩ else .error .domain

/-- `taily::fit_distribution(Feature_Statistics const&)`: the variance is
guarded by `std::max(epsilon, variance)`, then
`k = expected_value^2 / variance`, `theta = variance / expected_value`,
passed to the `gamma_distribution` constructor. -/
def fit_distribution (query_term_stats : Feature_Statistics) :
    Except Err Gamma_Distribution :=
  let variance := max epsilon query_term_stats.variance
  let k := query_term_stats.expected_value ^ 2 / variance
  let theta := variance / query_term_stats.expected_value
  make_gamma k theta

/-- `taily::fit_distribution(std::vector<Feature_Statistics> const&)`:
accumulates the statistics and delegates. -/
def fit_distribution_list (term_stats : List Feature_Statistics) :
    Except Err Gamma_Distribution :=
  fit_distribution (sum_stats term_stats)

/-- `boost::math::quantile(complement(d, q))` for a gamma distribution
whose parameters already passed the constructor check: a domain error for
`q` outside `[0, 1]`, an overflow error at `q = 0`, the value `0` at
`q = 1`, and `gamma_q_inv(shape, q) * scale` otherwise. -/
def quantile_complement (gqi : ℚ → ℚ → ℚ) (d : Gamma_Distribution) (q : ℚ) :
    Except Err ℚ :=
  if q < 0 ∨ 1 < q then .error .domain
  else if q = 0 then .error .overflow
  else if q = 1 then .ok 0
  else .ok (gqi d.shape q * d.scale)

/-- `boost::math::cdf(complement(d, x))` for a gamma distribution whose
parameters already passed the constructor check: a domain error for
`x < 0`, otherwise `gamma_q(shape, x / scale)`. -/
def cdf_complement (gq : ℚ → ℚ → ℚ) (d : Gamma_Distribution) (x : ℚ) :
    Except Err ℚ :=
  if x < 0 then .error .domain
  else .ok (gq d.shape (x / d.scale))

/-- `taily::estimate_cutoff`: empty `term_stats` short-circuits to `0.0`;
otherwise the gamma fit runs first (and may fail), then
`p_c = std::min(1.0, ntop / all)` feeds the complementary quantile.

When `all = 0.0` the C++ quotient `ntop / all` is `+inf` for `ntop > 0`
and NaN for `ntop = 0`; `std::min(1.0, x)` is `x < 1.0 ? x : 1.0`, which
returns `1.0` in both cases (a NaN comparison is false), so `p_c = 1.0`.
For `ntop < 0` the quotient is `-inf`, `std::min` keeps it, and the
quantile's probability check rejects it with a domain error.  The branch
below encodes exactly these outcomes. -/
def estimate_cutoff (gqi : ℚ → ℚ → ℚ) (stats : Query_Statistics) (ntop : Int) :
    Except Err ℚ :=
  if stats.term_stats = [] then .ok 0
  else
    match fit_distribution_list stats.term_stats with
    | .error e => .error e
    | .ok dist =>
      let a := all stats
      if a = 0 then
        if 0 ≤ ntop then quantile_complement gqi dist 1
        else .error .domain
      else
        quantile_complement gqi dist (min 1 ((ntop : ℚ) / a))

/-- `taily::calculate_cdf`: `1.0` for `cutoff <= 0`; `0.0` when the
accumulated statistics have zero mean or zero variance; otherwise the fit
(which may fail) followed by the complementary cdf at `cutoff`. -/
def calculate_cdf (gq : ℚ → ℚ → ℚ) (cutoff : ℚ) (stats : Query_Statistics) :
    Except Err ℚ :=
  if cutoff ≤ 0 then .ok 1
  else
    let query_stats := sum_stats stats.term_stats
    if query_stats.expected_value = 0 ∨ query_stats.variance = 0 then .ok 0
    else
      match fit_distribution query_stats with
      | .error e => .error e
      | .ok dist => cdf_complement gq dist cutoff

/-- The `std::transform` applying `calculate_cdf` to every shard: the first
exception thrown aborts the whole loop, as in C++. -/
def map_cdf (gq : ℚ → ℚ → ℚ) (cutoff : ℚ) :
    List Query_Statistics → Except Err (List ℚ)
  | [] => .ok []
  | s :: rest =>
    match calculate_cdf gq cutoff s with
    | .error e => .error e
    | .ok v =>
      match map_cdf gq cutoff rest with
      | .error e => .error e
      | .ok vs => .ok (v :: vs)

/-- `taily::score_shards`: per-shard `all` estimates, the global cutoff
(whose exception propagates), per-shard `calculate_cdf` (idem), the
element-wise product, the accumulated normalization factor, and the final
normalization `element * ntop / normalization_factor` when the factor is
positive, else `0.0`.  (The source also computes `global_all`, an unused
pure value.) -/
def score_shards (gq gqi : ℚ → ℚ → ℚ) (global_stats : Query_Statistics)
    (shard_stats : List Query_Statistics) (ntop : Int) : Except Err (List ℚ) :=
  let shard_all := shard_stats.map all
  match estimate_cutoff gqi global_stats ntop with
  | .error e => .error e
  | .ok global_cutoff =>
    match map_cdf gq global_cutoff shard_stats with
    | .error e => .error e
    | .ok cdfs =>
      let shard_coefs := List.zipWith (· * ·) cdfs shard_all
      let normalization_factor := shard_coefs.foldl (· + ·) 0
      .ok (shard_coefs.map (fun e =>
        if 0 < normalization_factor then e * (ntop : ℚ) / normalization_factor
        else 0))

/-! ### Auxiliary facts about folds, sums and products -/

/-- The constant zero stand-in for the abstract incomplete-gamma routines,
used to instantiate concrete scenarios whose control flow never consults
them (or consults them only after every concrete branch is fixed). -/
def zeroFn : ℚ → ℚ → ℚ := fun _ _ => 0

theorem epsilon_pos : 0 < epsilon := by norm_num [epsilon]

theorem foldl_pair_count (l : List ℚ) :
    ∀ (c : Int) (s : ℚ),
      l.foldl (fun p v => (p.1 + 1, p.2 + v)) (c, s) =
        (c + l.length, s + l.sum) := by
  induction l with
  | nil => intro c s; simp
  | cons x xs ih =>
    intro c s
    rw [List.foldl_cons, ih, List.length_cons, List.sum_cons]
    refine Prod.ext ?_ ?_
    · show c + 1 + (xs.length : Int) = c + ((xs.length + 1 : Nat) : Int)
      push_cast
      ring
    · show s + x + xs.sum = s + (x + xs.sum)
      ring

theorem foldl_add_map {α : Type} (f : α → ℚ) (l : List α) :
    ∀ a : ℚ, l.foldl (fun acc v => acc + f v) a = a + (l.map f).sum := by
  induction l with
  | nil => intro a; simp
  | cons x xs ih =>
    intro a
    rw [List.foldl_cons, ih, List.map_cons, List.sum_cons]
    ring

theorem foldl_mul_map {α : Type} (f : α → ℚ) (l : List α) :
    ∀ a : ℚ, l.foldl (fun acc v => acc * f v) a = a * (l.map f).prod := by
  induction l with
  | nil => intro a; simp
  | cons x xs ih =>
    intro a
    rw [List.foldl_cons, ih, List.map_cons, List.prod_cons]
    ring

theorem foldl_add_sum (l : List ℚ) : ∀ a : ℚ, l.foldl (· + ·) a = a + l.sum := by
  induction l with
  | nil => intro a; simp
  | cons x xs ih =>
    intro a
    rw [List.foldl_cons, ih, List.sum_cons]
    ring

theorem sum_map_mul (l : List ℚ) (k : ℚ) :
    (l.map (fun e => e * k)).sum = l.sum * k := by
  induction l with
  | nil => simp
  | cons x xs ih =>
    rw [List.map_cons, List.sum_cons, List.sum_cons, ih]
    ring

/-- For a positive mean, the gamma fit succeeds with the guarded variance. -/
theorem fit_distribution_pos (fs : Feature_Statistics)
    (h : 0 < fs.expected_value) :
    fit_distribution fs =
      .ok ⟨fs.expected_value ^ 2 / max epsilon fs.variance,
           max epsilon fs.variance / fs.expected_value⟩ := by
  have hv : 0 < max epsilon fs.variance := lt_max_of_lt_left epsilon_pos
  have hk : 0 < fs.expected_value ^ 2 / max epsilon fs.variance :=
    div_pos (pow_pos h 2) hv
  have ht : 0 < max epsilon fs.variance / fs.expected_value := div_pos hv h
  simp [fit_distribution, make_gamma, hk, ht]

/-! ### C7: the statistic accumulator -/

/-- Claim C7 (confirmed): `from_features` on the empty sequence returns
`{0, 0, 0}`; on a non-empty sequence it returns the length as frequency,
the arithmetic mean `sum / count` as expected value, and the population
variance `sum((mean - v)^2) / count` (division by `count`, not
`count - 1`). -/
theorem from_features_spec (values : List ℚ) (h : values ≠ []) :
    from_features ([] : List ℚ) = ⟨0, 0, 0⟩ ∧
    (from_features values).frequency = values.length ∧
    (from_features values).expected_value = values.sum / (values.length : ℚ) ∧
    (from_features values).variance =
      (values.map (fun v => (values.sum / (values.length : ℚ) - v) ^ 2)).sum
        / (values.length : ℚ) := by
  have hmean : ((0 : ℚ) + values.sum) / (((0 : Int) + (values.length : Int) : Int) : ℚ)
      = values.sum / (values.length : ℚ) := by
    push_cast
    rw [zero_add, zero_add]
  refine ⟨by simp [from_features], ?_, ?_, ?_⟩
  · simp only [from_features, if_neg h, foldl_pair_count]
    omega
  · simp only [from_features, if_neg h, foldl_pair_count]
    exact hmean
  · simp only [from_features, if_neg h, foldl_pair_count, foldl_add_map,
      zero_add]
    push_cast
    rfl

/-- Witness for C7 at the concrete feature list `[2, 3, 1, 4, 5, 3]`
(the list used by the repository's own unit test). -/
theorem from_features_spec_witness :
    (from_features [2, 3, 1, 4, 5, 3]).frequency = 6 ∧
    (from_features [2, 3, 1, 4, 5, 3]).expected_value = 3 := by
  have h := from_features_spec [2, 3, 1, 4, 5, 3] (by decide)
  exact ⟨h.2.1.trans (by decide), h.2.2.1.trans (by norm_num)⟩

/-! ### C4 and C8: the distribution fitter -/

/-- Claim C4 (corrected): a zero expected value makes `fit_distribution`
fail with a domain error (the shape parameter `0` is rejected by the
`gamma_distribution` constructor); for a positive expected value the
method-of-moments parameters `shape = expected_value^2 / variance` and
`scale = variance / expected_value` are returned — but only when
`variance >= epsilon`: the guard `max(epsilon, variance)` replaces any
smaller variance, including small positive ones, so the claim's
"variance > 0" must be strengthened to `variance >= epsilon`. -/
theorem fit_distribution_domain (fs : Feature_Statistics) :
    (fs.expected_value = 0 → fit_distribution fs = .error .domain) ∧
    (0 < fs.expected_value → epsilon ≤ fs.variance →
      fit_distribution fs =
        .ok ⟨fs.expected_value ^ 2 / fs.variance,
             fs.variance / fs.expected_value⟩) := by
  constructor
  · intro h
    simp [fit_distribution, make_gamma, h]
  · intro h hv
    rw [fit_distribution_pos fs h, max_eq_right hv]

/-- Witness for C4: the all-zero statistic (the aggregate of the test's
fully degenerate shard) is rejected, and `{2, 1, 3}` fits to shape `4`,
scale `1/2`. -/
theorem fit_distribution_domain_witness :
    fit_distribution ⟨0, 0, 0⟩ = .error .domain ∧
    fit_distribution ⟨2, 1, 3⟩ = .ok ⟨4, 1 / 2⟩ := by
  refine ⟨(fit_distribution_domain ⟨0, 0, 0⟩).1 rfl, ?_⟩
  rw [(fit_distribution_domain ⟨2, 1, 3⟩).2 (by norm_num) (by norm_num [epsilon])]
  norm_num

/-- Counterexample for C4: at `expected_value = 1` and the positive
variance `1 / 2^53`, the fitted shape is `2^52`, not the claim's
`expected_value^2 / variance = 2^53`. -/
theorem fit_distribution_small_variance :
    (0 : ℚ) < 1 / 2 ^ 53 ∧
    fit_distribution ⟨1, 1 / 2 ^ 53, 0⟩ = .ok ⟨2 ^ 52, 1 / 2 ^ 52⟩ ∧
    ¬ fit_distribution ⟨1, 1 / 2 ^ 53, 0⟩ =
        .ok ⟨(1 : ℚ) ^ 2 / (1 / 2 ^ 53), (1 / 2 ^ 53) / 1⟩ := by
  refine ⟨by norm_num, ?_, ?_⟩ <;>
    norm_num [fit_distribution, make_gamma, epsilon]

/-- Claim C8 (corrected): for a positive expected value the given variance
is used unchanged in both parameters exactly when `variance >= epsilon`;
whenever `variance < epsilon` — not only `variance <= 0` — machine epsilon
is substituted, because the source computes `max(epsilon, variance)`. -/
theorem fit_variance_guard (fs : Feature_Statistics)
    (h : 0 < fs.expected_value) :
    (epsilon ≤ fs.variance →
      fit_distribution fs =
        .ok ⟨fs.expected_value ^ 2 / fs.variance,
             fs.variance / fs.expected_value⟩) ∧
    (fs.variance < epsilon →
      fit_distribution fs =
        .ok ⟨fs.expected_value ^ 2 / epsilon, epsilon / fs.expected_value⟩) := by
  constructor
  · intro hv
    rw [fit_distribution_pos fs h, max_eq_right hv]
  · intro hv
    rw [fit_distribution_pos fs h, max_eq_left (le_of_lt hv)]

/-- Witness for C8: a negative variance is replaced by epsilon. -/
theorem fit_variance_guard_witness :
    fit_distribution ⟨1, -1, 0⟩ = .ok ⟨2 ^ 52, 1 / 2 ^ 52⟩ := by
  rw [(fit_variance_guard ⟨1, -1, 0⟩ (by norm_num)).2 (by norm_num [epsilon])]
  norm_num [epsilon]

/-- Counterexample for C8: the strictly positive variance `1 / 2^53` is
*not* used unchanged — the fit does not return the parameters the claim
prescribes for it. -/
theorem fit_variance_small_positive :
    (0 : ℚ) < 1 / 2 ^ 53 ∧
    ¬ fit_distribution ⟨2, 1 / 2 ^ 53, 0⟩ =
        .ok ⟨(2 : ℚ) ^ 2 / (1 / 2 ^ 53), (1 / 2 ^ 53) / 2⟩ := by
  refine ⟨by norm_num, ?_⟩
  norm_num [fit_distribution, make_gamma, epsilon]

/-! ### C6: the any/all match-count estimators -/

/-- Claim C6 (corrected): `any` is
`collection_size * (1 - prod_i (1 - frequency_i / collection_size))` (an
empty term list yields product `1`, hence `0`); if `any` is `0`, `all` is
`0`; and if `any` is nonzero, `all = any * prod_i (frequency_i / any)`,
with `any` — not `collection_size` — as every term's denominator.  The
claim's "exactly when" is amended to this one-way implication: `all` can
be `0` while `any` is nonzero (a zero-frequency term annihilates the
product). -/
theorem any_all_relation (stats : Query_Statistics) :
    any stats = (stats.collection_size : ℚ) *
      (1 - (stats.term_stats.map
        (fun fs => 1 - (fs.frequency : ℚ) / (stats.collection_size : ℚ))).prod) ∧
    (stats.term_stats = [] → any stats = 0) ∧
    (any stats = 0 → all stats = 0) ∧
    (any stats ≠ 0 → all stats =
      any stats *
        (stats.term_stats.map (fun fs => (fs.frequency : ℚ) / any stats)).prod) := by
  have hany : any stats = (stats.collection_size : ℚ) *
      (1 - (stats.term_stats.map
        (fun fs => 1 - (fs.frequency : ℚ) / (stats.collection_size : ℚ))).prod) := by
    simp only [any, foldl_mul_map, one_mul]
  refine ⟨hany, ?_, ?_, ?_⟩
  · intro h
    rw [hany, h]
    simp
  · intro h
    simp [all, h]
  · intro h
    simp only [all, if_neg h, foldl_mul_map, one_mul]

/-- Witness for C6 at a single-term query: `any = 5` and `all = 5`. -/
theorem any_all_relation_witness :
    all ⟨[⟨1, 1, 5⟩], 10⟩ =
      any ⟨[⟨1, 1, 5⟩], 10⟩ *
        ((⟨[⟨1, 1, 5⟩], 10⟩ : Query_Statistics).term_stats.map
          (fun fs => (fs.frequency : ℚ) / any ⟨[⟨1, 1, 5⟩], 10⟩)).prod := by
  exact (any_all_relation ⟨[⟨1, 1, 5⟩], 10⟩).2.2.2
    (by norm_num [any, List.foldl])

/-- Counterexample for C6's "exactly when": a query with one
zero-frequency term and one term of frequency `4` in a collection of `8`
documents has `all = 0` but `any = 4 ≠ 0`. -/
theorem all_zero_any_nonzero :
    all ⟨[⟨0, 0, 0⟩, ⟨2, 1, 4⟩], 8⟩ = 0 ∧
    any ⟨[⟨0, 0, 0⟩, ⟨2, 1, 4⟩], 8⟩ ≠ 0 := by
  norm_num [all, any, List.foldl]

/-! ### C2 and C3: the cutoff estimator -/

/-- For a zero mean the gamma fit fails: the shape parameter is `0`. -/
theorem fit_distribution_zero_mean (fs : Feature_Statistics)
    (h : fs.expected_value = 0) : fit_distribution fs = .error .domain := by
  simp [fit_distribution, make_gamma, h]

/-- Claim C2 (corrected): `estimate_cutoff` on empty `term_stats` returns
`0.0`; otherwise, when the aggregated statistics have a positive mean (so
the gamma fit succeeds) and `all > 0`, it returns the upper-tail quantile
of the fitted distribution at `p_c = min(1.0, ntop / all)` — precisely,
the result of Boost's complemented quantile there, which is an error for
`p_c <= 0`, i.e. `ntop <= 0`.  The positive-mean proviso is forced: a
non-empty query whose aggregated mean is `0` makes the fit throw even
though `all > 0`. -/
theorem estimate_cutoff_quantile (gqi : ℚ → ℚ → ℚ) (stats : Query_Statistics)
    (ntop : Int) :
    (stats.term_stats = [] → estimate_cutoff gqi stats ntop = .ok 0) ∧
    (0 < (sum_stats stats.term_stats).expected_value → 0 < all stats →
      ∃ d, fit_distribution_list stats.term_stats = .ok d ∧
        estimate_cutoff gqi stats ntop =
          quantile_complement gqi d (min 1 ((ntop : ℚ) / all stats))) := by
  constructor
  · intro h
    simp [estimate_cutoff, h]
  · intro hev hall
    have hne : stats.term_stats ≠ [] := by
      intro he
      rw [he] at hev
      simp [sum_stats] at hev
    have hfit := fit_distribution_pos (sum_stats stats.term_stats) hev
    have hfl : fit_distribution_list stats.term_stats =
        .ok ⟨(sum_stats stats.term_stats).expected_value ^ 2 /
              max epsilon (sum_stats stats.term_stats).variance,
             max epsilon (sum_stats stats.term_stats).variance /
              (sum_stats stats.term_stats).expected_value⟩ := by
      rw [fit_distribution_list, hfit]
    refine ⟨_, hfl, ?_⟩
    simp only [estimate_cutoff, if_neg hne, hfl, if_neg (ne_of_gt hall)]

/-- Witness for C2 at a one-term query with `all = 5` and `ntop = 2`:
`p_c = 2/5` and the quantile path is taken. -/
theorem estimate_cutoff_quantile_witness :
    estimate_cutoff zeroFn ⟨[⟨3, 1, 5⟩], 10⟩ 2 = .ok 0 := by
  obtain ⟨d, hd, heq⟩ := (estimate_cutoff_quantile zeroFn ⟨[⟨3, 1, 5⟩], 10⟩ 2).2
    (by norm_num [sum_stats, List.foldl, Feature_Statistics.add_def])
    (by norm_num [all, any, List.foldl])
  rw [heq]
  have hall : all ⟨[⟨3, 1, 5⟩], 10⟩ = 5 := by
    norm_num [all, any, List.foldl]
  rw [hall]
  norm_num [quantile_complement, zeroFn]

/-- Counterexample for C2: a term occurring in five documents whose feature
values are all zero gives `all = 5 > 0`, yet `estimate_cutoff` raises a
domain error (the fit of the zero-mean aggregate is rejected) instead of
returning a quantile. -/
theorem estimate_cutoff_fit_failure :
    0 < all ⟨[⟨0, 0, 5⟩], 10⟩ ∧
    (⟨[⟨0, 0, 5⟩], 10⟩ : Query_Statistics).term_stats ≠ [] ∧
    estimate_cutoff zeroFn ⟨[⟨0, 0, 5⟩], 10⟩ 1 = .error .domain := by
  refine ⟨by norm_num [all, any, List.foldl], by simp, ?_⟩
  norm_num [estimate_cutoff, fit_distribution_list, fit_distribution, make_gamma,
    sum_stats, List.foldl, Feature_Statistics.add_def, epsilon]

/-- Claim C3 (corrected): when `all = 0` with non-empty `term_stats` and a
fitting aggregate (positive mean), `estimate_cutoff` does *not* surface an
explicit failure for `ntop >= 0`: the IEEE quotient `ntop / 0.0` (`+inf`
or NaN) is clamped to `p_c = 1.0` by `std::min`, and the complemented
quantile at `1.0` returns `0.0` silently.  Only `ntop < 0` (where
`p_c = -inf`) produces a domain error, and it comes from the quantile's
probability check, not from an `all == 0` guard. -/
theorem estimate_cutoff_zero_all (gqi : ℚ → ℚ → ℚ) (stats : Query_Statistics)
    (ntop : Int) (h1 : stats.term_stats ≠ [])
    (h2 : 0 < (sum_stats stats.term_stats).expected_value)
    (h3 : all stats = 0) :
    (0 ≤ ntop → estimate_cutoff gqi stats ntop = .ok 0) ∧
    (ntop < 0 → estimate_cutoff gqi stats ntop = .error .domain) := by
  have hfit := fit_distribution_pos (sum_stats stats.term_stats) h2
  have hfl : fit_distribution_list stats.term_stats =
      .ok ⟨(sum_stats stats.term_stats).expected_value ^ 2 /
            max epsilon (sum_stats stats.term_stats).variance,
           max epsilon (sum_stats stats.term_stats).variance /
            (sum_stats stats.term_stats).expected_value⟩ := by
    rw [fit_distribution_list, hfit]
  constructor
  · intro hn
    simp [estimate_cutoff, if_neg h1, hfl, h3, hn, quantile_complement]
  · intro hn
    simp [estimate_cutoff, if_neg h1, hfl, h3, not_le.mpr hn]

/-- Witness for C3: a query with a zero-frequency term (hence `all = 0`)
and a positive aggregated mean returns `0.0` for `ntop = 2`. -/
theorem estimate_cutoff_zero_all_witness :
    estimate_cutoff zeroFn ⟨[⟨0, 0, 0⟩, ⟨1, 1, 5⟩], 10⟩ 2 = .ok 0 := by
  exact (estimate_cutoff_zero_all zeroFn ⟨[⟨0, 0, 0⟩, ⟨1, 1, 5⟩], 10⟩ 2
    (by simp)
    (by norm_num [sum_stats, List.foldl, Feature_Statistics.add_def])
    (by norm_num [all, any, List.foldl])).1 (by norm_num)

/-- Counterexample for C3: at this non-empty query `all = 0`, yet
`estimate_cutoff` returns `Except.ok 0` — a silent defined value, not the
explicit failure the claim requires. -/
theorem estimate_cutoff_zero_all_no_error :
    (⟨[⟨0, 0, 0⟩, ⟨1, 1, 5⟩], 10⟩ : Query_Statistics).term_stats ≠ [] ∧
    all ⟨[⟨0, 0, 0⟩, ⟨1, 1, 5⟩], 10⟩ = 0 ∧
    estimate_cutoff zeroFn ⟨[⟨0, 0, 0⟩, ⟨1, 1, 5⟩], 10⟩ 1 = .ok 0 := by
  refine ⟨by simp, by norm_num [all, any, List.foldl], ?_⟩
  norm_num [estimate_cutoff, fit_distribution_list, fit_distribution, make_gamma,
    sum_stats, List.foldl, Feature_Statistics.add_def, epsilon, all, any,
    quantile_complement]

/-! ### C5: the shard cutoff evaluator -/

/-- For a negative mean the gamma fit fails: the scale parameter is
negative. -/
theorem fit_distribution_neg_mean (fs : Feature_Statistics)
    (h : fs.expected_value < 0) : fit_distribution fs = .error .domain := by
  have hv : 0 < max epsilon fs.variance := lt_max_of_lt_left epsilon_pos
  have ht : max epsilon fs.variance / fs.expected_value < 0 :=
    div_neg_of_pos_of_neg hv h
  simp only [fit_distribution, make_gamma, if_neg]
  rw [if_neg]
  rintro ⟨-, h2⟩
  exact absurd h2 (not_lt.mpr (le_of_lt ht))

/-- Claim C5 (corrected): `calculate_cdf` returns `1.0` for any
`cutoff <= 0` whatever the statistics; for a positive cutoff it returns
`0.0` when the aggregated mean or variance is exactly `0`; otherwise —
provided the aggregated mean is positive, so that the fit succeeds — it
returns the fitted distribution's complementary CDF at `cutoff`.  The
proviso is forced: a negative aggregated mean (legal, feature values may
be negative) makes the gamma fit throw a domain error instead. -/
theorem calculate_cdf_branches (gq : ℚ → ℚ → ℚ) (cutoff : ℚ)
    (stats : Query_Statistics) :
    (cutoff ≤ 0 → calculate_cdf gq cutoff stats = .ok 1) ∧
    (0 < cutoff →
      ((sum_stats stats.term_stats).expected_value = 0 ∨
        (sum_stats stats.term_stats).variance = 0) →
      calculate_cdf gq cutoff stats = .ok 0) ∧
    (0 < cutoff → 0 < (sum_stats stats.term_stats).expected_value →
      (sum_stats stats.term_stats).variance ≠ 0 →
      ∃ d, fit_distribution (sum_stats stats.term_stats) = .ok d ∧
        calculate_cdf gq cutoff stats = .ok (gq d.shape (cutoff / d.scale))) ∧
    (0 < cutoff → (sum_stats stats.term_stats).expected_value < 0 →
      (sum_stats stats.term_stats).variance ≠ 0 →
      calculate_cdf gq cutoff stats = .error .domain) := by
  refine ⟨?_, ?_, ?_, ?_⟩
  · intro h
    simp [calculate_cdf, if_pos h]
  · intro h1 h2
    simp only [calculate_cdf, if_neg (not_le.mpr h1), if_pos h2]
  · intro h1 hev hvar
    have hne : ¬ ((sum_stats stats.term_stats).expected_value = 0 ∨
        (sum_stats stats.term_stats).variance = 0) := by
      push_neg
      exact ⟨ne_of_gt hev, hvar⟩
    have hd := fit_distribution_pos (sum_stats stats.term_stats) hev
    refine ⟨_, hd, ?_⟩
    simp only [calculate_cdf, if_neg (not_le.mpr h1), if_neg hne, hd,
      cdf_complement, if_neg (not_lt.mpr (le_of_lt h1))]
  · intro h1 hev hvar
    have hne : ¬ ((sum_stats stats.term_stats).expected_value = 0 ∨
        (sum_stats stats.term_stats).variance = 0) := by
      push_neg
      exact ⟨ne_of_lt hev, hvar⟩
    simp only [calculate_cdf, if_neg (not_le.mpr h1), if_neg hne,
      fit_distribution_neg_mean (sum_stats stats.term_stats) hev]

/-- Witness for C5: at cutoff `1` a shard with positive aggregated mean
takes the complementary-CDF path. -/
theorem calculate_cdf_branches_witness :
    calculate_cdf zeroFn 1 ⟨[⟨2, 1, 3⟩], 10⟩ = .ok 0 := by
  obtain ⟨d, -, heq⟩ := (calculate_cdf_branches zeroFn 1 ⟨[⟨2, 1, 3⟩], 10⟩).2.2.1
    (by norm_num)
    (by norm_num [sum_stats, List.foldl, Feature_Statistics.add_def])
    (by norm_num [sum_stats, List.foldl, Feature_Statistics.add_def])
  rw [heq]
  simp [zeroFn]

/-- Counterexample for C5: a shard whose aggregated mean is `-1` (variance
`1`, cutoff `1`): neither short-circuit branch applies, yet the result is
a domain error, not the complementary CDF the claim promises. -/
theorem calculate_cdf_negative_mean_error :
    (sum_stats [⟨-1, 1, 5⟩]).expected_value ≠ 0 ∧
    (sum_stats [⟨-1, 1, 5⟩]).variance ≠ 0 ∧
    calculate_cdf zeroFn 1 ⟨[⟨-1, 1, 5⟩], 10⟩ = .error .domain := by
  refine ⟨?_, ?_, ?_⟩ <;>
    norm_num [calculate_cdf, sum_stats, List.foldl, Feature_Statistics.add_def,
      fit_distribution, make_gamma, cdf_complement, epsilon]

/-! ### C1 and C10: the shard scorer -/

/-- The value `calculate_cdf` returns when it does not throw (`0` as a
dummy on the error path, never used under a success hypothesis). -/
def cdf_val (gq : ℚ → ℚ → ℚ) (cutoff : ℚ) (s : Query_Statistics) : ℚ :=
  match calculate_cdf gq cutoff s with
  | .ok v => v
  | .error _ => 0

/-- The per-shard coefficients `scoreAboveCutoff(cutoff, shard) * all(shard)`
of `score_shards`; their sum is the normalization factor. -/
def shard_coefs (gq : ℚ → ℚ → ℚ) (cutoff : ℚ)
    (shards : List Query_Statistics) : List ℚ :=
  shards.map (fun s => cdf_val gq cutoff s * all s)

theorem map_cdf_ok_eq (gq : ℚ → ℚ → ℚ) (cutoff : ℚ) :
    ∀ (l : List Query_Statistics) (ys : List ℚ),
      map_cdf gq cutoff l = .ok ys → ys = l.map (cdf_val gq cutoff) := by
  intro l
  induction l with
  | nil =>
    intro ys h
    simp only [map_cdf] at h
    cases h
    simp
  | cons s rest ih =>
    intro ys h
    simp only [map_cdf] at h
    cases hc : calculate_cdf gq cutoff s with
    | error e => rw [hc] at h; cases h
    | ok v =>
      rw [hc] at h
      cases hr : map_cdf gq cutoff rest with
      | error e => rw [hr] at h; cases h
      | ok vs =>
        rw [hr] at h
        cases h
        rw [List.map_cons, ← ih vs hr]
        simp [cdf_val, hc]

theorem zipWith_mul_map {α : Type} (f g : α → ℚ) :
    ∀ l : List α,
      List.zipWith (· * ·) (l.map f) (l.map g) = l.map (fun x => f x * g x) := by
  intro l
  induction l with
  | nil => rfl
  | cons x xs ih => simp [ih]

/-- When `score_shards` succeeds, its output is the per-shard coefficient
list pushed through the normalization step. -/
theorem score_shards_ok (gq gqi : ℚ → ℚ → ℚ) (g : Query_Statistics)
    (shards : List Query_Statistics) (ntop : Int) (scores : List ℚ)
    (h : score_shards gq gqi g shards ntop = .ok scores) :
    ∃ c, estimate_cutoff gqi g ntop = .ok c ∧
      scores = (shard_coefs gq c shards).map
        (fun e => if 0 < (shard_coefs gq c shards).sum
          then e * (ntop : ℚ) / (shard_coefs gq c shards).sum else 0) := by
  simp only [score_shards] at h
  cases hc : estimate_cutoff gqi g ntop with
  | error e => rw [hc] at h; cases h
  | ok c =>
    simp only [hc] at h
    cases hm : map_cdf gq c shards with
    | error e => rw [hm] at h; cases h
    | ok cdfs =>
      simp only [hm] at h
      cases h
      refine ⟨c, rfl, ?_⟩
      rw [map_cdf_ok_eq gq c shards cdfs hm, zipWith_mul_map,
        foldl_add_sum, zero_add]
      rfl

/-- `calculate_cdf` can only return `1`, `0`, or a value of the
complementary-CDF routine `gq`. -/
theorem calculate_cdf_ok_cases (gq : ℚ → ℚ → ℚ) (cutoff : ℚ)
    (s : Query_Statistics) (v : ℚ) (h : calculate_cdf gq cutoff s = .ok v) :
    v = 1 ∨ v = 0 ∨ ∃ a b, v = gq a b := by
  simp only [calculate_cdf] at h
  by_cases h1 : cutoff ≤ 0
  · rw [if_pos h1] at h
    cases h
    exact Or.inl rfl
  · rw [if_neg h1] at h
    by_cases h2 : (sum_stats s.term_stats).expected_value = 0 ∨
        (sum_stats s.term_stats).variance = 0
    · rw [if_pos h2] at h
      cases h
      exact Or.inr (Or.inl rfl)
    · rw [if_neg h2] at h
      cases hf : fit_distribution (sum_stats s.term_stats) with
      | error e => rw [hf] at h; cases h
      | ok d =>
        rw [hf] at h
        simp only [cdf_complement] at h
        by_cases h3 : cutoff < 0
        · rw [if_pos h3] at h; cases h
        · rw [if_neg h3] at h
          cases h
          exact Or.inr (Or.inr ⟨d.shape, cutoff / d.scale, rfl⟩)

theorem cdf_val_nonneg (gq : ℚ → ℚ → ℚ) (hgq : ∀ a b, 0 ≤ gq a b)
    (cutoff : ℚ) (s : Query_Statistics) : 0 ≤ cdf_val gq cutoff s := by
  unfold cdf_val
  cases h : calculate_cdf gq cutoff s with
  | error e => exact le_refl (0 : ℚ)
  | ok v =>
    show (0 : ℚ) ≤ v
    rcases calculate_cdf_ok_cases gq cutoff s v h with h1 | h1 | ⟨a, b, h1⟩
    · rw [h1]; exact zero_le_one
    · rw [h1]
    · rw [h1]; exact hgq a b

/-- Claim C1 (corrected): whenever `score_shards` returns, it returns one
score per shard in input order; with the normalization factor
`sum_i scoreAboveCutoff(cutoff, shard_i) * all(shard_i)` positive, the
scores are exactly `coef_i * ntop / normalizationFactor` and sum to `ntop`
(exactly, in this exact-arithmetic embedding); otherwise every score is
`0.0`.  Non-negativity of the scores is *not* unconditional — it needs
`ntop >= 0`, non-negative per-shard `all` estimates (frequencies exceeding
the collection size can make `all` negative) and a non-negative
complementary-CDF routine. -/
theorem score_shards_spec (gq gqi : ℚ → ℚ → ℚ) (global_stats : Query_Statistics)
    (shards : List Query_Statistics) (ntop : Int) (scores : List ℚ)
    (h : score_shards gq gqi global_stats shards ntop = .ok scores) :
    scores.length = shards.length ∧
    (∀ c, estimate_cutoff gqi global_stats ntop = .ok c →
      (0 < (shard_coefs gq c shards).sum →
        scores = (shard_coefs gq c shards).map
          (fun e => e * (ntop : ℚ) / (shard_coefs gq c shards).sum) ∧
        scores.sum = (ntop : ℚ)) ∧
      (¬ 0 < (shard_coefs gq c shards).sum → ∀ x ∈ scores, x = 0)) ∧
    ((∀ a b, 0 ≤ gq a b) → 0 ≤ (ntop : ℚ) → (∀ s ∈ shards, 0 ≤ all s) →
      ∀ x ∈ scores, 0 ≤ x) := by
  obtain ⟨c, hc, hs⟩ := score_shards_ok gq gqi global_stats shards ntop scores h
  have hlen : scores.length = shards.length := by
    rw [hs, List.length_map, shard_coefs, List.length_map]
  refine ⟨hlen, ?_, ?_⟩
  · intro c' hc'
    rw [hc] at hc'
    cases hc'
    constructor
    · intro hpos
      have hs2 : scores = (shard_coefs gq c shards).map
          (fun e => e * (ntop : ℚ) / (shard_coefs gq c shards).sum) := by
        rw [hs]
        exact List.map_congr_left (fun e _ => by rw [if_pos hpos])
      refine ⟨hs2, ?_⟩
      rw [hs2]
      have : ∀ e : ℚ, e * (ntop : ℚ) / (shard_coefs gq c shards).sum =
          e * ((ntop : ℚ) / (shard_coefs gq c shards).sum) := fun e =>
        mul_div_assoc e _ _
      rw [List.map_congr_left (fun e _ => this e), sum_map_mul, mul_comm,
        div_mul_cancel₀ _ (ne_of_gt hpos)]
    · intro hneg x hx
      rw [hs] at hx
      obtain ⟨e, -, he⟩ := List.mem_map.mp hx
      rw [if_neg hneg] at he
      exact he.symm
  · intro hgq hn hall x hx
    rw [hs] at hx
    obtain ⟨e, he, hex⟩ := List.mem_map.mp hx
    obtain ⟨s, hsmem, hse⟩ := List.mem_map.mp he
    have hcoef : 0 ≤ e := by
      rw [← hse]
      exact mul_nonneg (cdf_val_nonneg gq hgq c s) (hall s hsmem)
    by_cases hpos : 0 < (shard_coefs gq c shards).sum
    · rw [if_pos hpos] at hex
      rw [← hex]
      exact div_nonneg (mul_nonneg hcoef hn) (le_of_lt hpos)
    · rw [if_neg hpos] at hex
      rw [← hex]

/-- Witness for C1 at one non-degenerate shard: `score_shards` returns a
single score, and its length matches the shard count. -/
theorem score_shards_spec_witness :
    score_shards zeroFn zeroFn ⟨[], 10⟩ [⟨[⟨1, 1, 5⟩], 10⟩] 2 = .ok [2] ∧
    ([(2 : ℚ)]).length = ([⟨[⟨1, 1, 5⟩], 10⟩] : List Query_Statistics).length := by
  have h : score_shards zeroFn zeroFn ⟨[], 10⟩ [⟨[⟨1, 1, 5⟩], 10⟩] 2 = .ok [2] := by
    norm_num [score_shards, estimate_cutoff, map_cdf, calculate_cdf, all, any,
      List.foldl, List.zipWith, sum_stats]
  exact ⟨h, (score_shards_spec zeroFn zeroFn ⟨[], 10⟩ [⟨[⟨1, 1, 5⟩], 10⟩] 2 [2] h).1⟩

/-- Counterexample for C1's unconditional non-negativity: two shards with
non-negative frequencies (but frequencies above the collection size, which
the data model tolerates) make one `all` estimate negative; with an empty
global query the cutoff is `0`, every `calculate_cdf` short-circuits to
`1`, and `score_shards` returns the negative score `-1`. -/
theorem score_shards_negative_score :
    score_shards zeroFn zeroFn ⟨[], 10⟩
        [⟨[⟨1, 1, 30⟩, ⟨1, 1, 30⟩], 10⟩, ⟨[⟨1, 1, 60⟩], 10⟩] 1 = .ok [-1, 2] ∧
    (-1 : ℚ) < 0 := by
  constructor
  · norm_num [score_shards, estimate_cutoff, map_cdf, calculate_cdf, all, any,
      List.foldl, List.zipWith, sum_stats]
  · norm_num

/-- Claim C10 (confirmed): a non-empty query whose aggregated mean is `0`
(for example all-zero term statistics) makes the gamma fit fail — shape
`0` is rejected with a domain error — so `estimate_cutoff` fails, and
`score_shards` fails for *any* shard list when such statistics are the
global ones; the very same statistics supplied as a shard are handled by
`calculate_cdf`'s degenerate-aggregate branch, which returns `0.0` with no
error, and their shard receives score `0` whenever the run's global cutoff
is positive. -/
theorem degenerate_global_vs_shard (gq gqi : ℚ → ℚ → ℚ)
    (stats : Query_Statistics) (ntop : Int)
    (h1 : stats.term_stats ≠ [])
    (h2 : (sum_stats stats.term_stats).expected_value = 0) :
    fit_distribution_list stats.term_stats = .error .domain ∧
    estimate_cutoff gqi stats ntop = .error .domain ∧
    (∀ shards, score_shards gq gqi stats shards ntop = .error .domain) ∧
    (∀ cutoff : ℚ, 0 < cutoff → calculate_cdf gq cutoff stats = .ok 0) ∧
    (∀ g shards scores c (i : Nat),
      estimate_cutoff gqi g ntop = .ok c → 0 < c →
      score_shards gq gqi g shards ntop = .ok scores →
      shards.get? i = some stats → scores.get? i = some 0) := by
  have hfl : fit_distribution_list stats.term_stats = .error .domain := by
    rw [fit_distribution_list, fit_distribution_zero_mean _ h2]
  have hec : estimate_cutoff gqi stats ntop = .error .domain := by
    simp [estimate_cutoff, if_neg h1, hfl]
  have hcdf : ∀ cutoff : ℚ, 0 < cutoff → calculate_cdf gq cutoff stats = .ok 0 := by
    intro cutoff hcut
    simp [calculate_cdf, not_le.mpr hcut, h2]
  refine ⟨hfl, hec, ?_, hcdf, ?_⟩
  · intro shards
    simp [score_shards, hec]
  · intro g shards scores c i hecg hcpos hss hget
    obtain ⟨c', hc', hsc⟩ := score_shards_ok gq gqi g shards ntop scores hss
    rw [hecg] at hc'
    cases hc'
    have hzero : cdf_val gq c stats = 0 := by
      simp [cdf_val, hcdf c hcpos]
    subst hsc
    simp only [shard_coefs, List.map_map, List.get?_map, hget]
    simp [hzero]

/-- Witness for C10 at a single zero-mean term statistic over ten
documents. -/
theorem degenerate_global_vs_shard_witness :
    estimate_cutoff zeroFn ⟨[⟨0, 0, 7⟩], 10⟩ 3 = .error .domain ∧
    calculate_cdf zeroFn 1 ⟨[⟨0, 0, 7⟩], 10⟩ = .ok 0 := by
  have h := degenerate_global_vs_shard zeroFn zeroFn ⟨[⟨0, 0, 7⟩], 10⟩ 3
    (by simp)
    (by norm_num [sum_stats, List.foldl, Feature_Statistics.add_def])
  exact ⟨h.2.1, h.2.2.2.1 1 (by norm_num)⟩

end Taily
